import Mathlib

/-!
Verification of the sleap multi-format dataset I/O and adaptation layer.

Part 1 embeds the pure tensor transforms of sleap/nn/data/identity.py
(make_class_vectors, make_class_maps).  Tensors are modelled as nested
lists over exact arithmetic (Int for integer tensors, the rationals for
float tensors); tf.one_hot and tf.reduce_max are embedded by their
documented elementwise semantics.
-/

namespace Sleap

/-- Embedding of a single row of tf.one_hot: for an index ind and depth n,
the row of length n that is 1 at position c exactly when ind = c (which can
only happen for 0 <= ind < n) and 0 everywhere else.  Out-of-range indices,
including the -1 sentinel, therefore produce an all-zero row, matching the
documented behavior of tf.one_hot. -/
def tfOneHotRow (ind : Int) (n : Nat) : List Int :=
  (List.range n).map fun (c : Nat) => if ind = (c : Int) then 1 else 0

/-- Embedding of tf.one_hot over a rank-1 index tensor: one row per index. -/
def tfOneHot (inds : List Int) (n : Nat) : List (List Int) :=
  inds.map fun ind => tfOneHotRow ind n

/-- Embedding of make_class_vectors (sleap/nn/data/identity.py):
returns tf.one_hot(class_inds, n_classes, dtype=tf.int32). -/
def make_class_vectors (class_inds : List Int) (n_classes : Nat) : List (List Int) :=
  tfOneHot class_inds n_classes

/-- Embedding of tf.reduce_max along a nonempty axis.  tf.reduce_max of an
empty axis is -inf, which has no rational counterpart; the [] case returns 0
and every theorem that touches it carries a nonemptiness hypothesis. -/
def listMax : List ℚ → ℚ
  | [] => 0
  | [x] => x
  | x :: y :: xs => max x (listMax (y :: xs))

/-- Embedding of make_class_maps (sleap/nn/data/identity.py).  The confidence
maps are a (grid_height, grid_width, n_instances) tensor.  Per pixel:
mask = confmaps / reduce_sum(confmaps, axis=2) zeroed where the raw value is
not above the threshold (tf.where(confmaps > threshold, mask, 0)), then the
class maps are reduce_max over the instance axis of mask * class_vectors. -/
def make_class_maps (confmaps : List (List (List ℚ))) (class_inds : List Int)
    (n_classes : Nat) (threshold : ℚ) : List (List (List ℚ)) :=
  confmaps.map fun row => row.map fun pixel =>
    (List.range n_classes).map fun c =>
      listMax (List.zipWith (fun m r => m * r.getD c 0)
        (pixel.map fun v => if threshold < v then v / pixel.sum else 0)
        ((make_class_vectors class_inds n_classes).map fun r => r.map fun (z : Int) => (z : ℚ)))

/-- Modelled from the spec: the canonical Video entity (sleap.io.video, not in
the sources) is a reference to an underlying media source with a stable
identity; we identify it by the backend filename. -/
structure Video where
  filename : String
deriving DecidableEq, Inhabited

/-- Modelled from the spec: the canonical Skeleton (sleap.skeleton, not in the
sources) is an ordered set of named nodes and edges between node indices. -/
structure Skeleton where
  nodeNames : List String
  edgeInds : List (Nat × Nat)
deriving DecidableEq, Inhabited

/-- Modelled from the spec: a Track (sleap.instance, not in the sources) is a
named identity hypothesis carrying the spawned_on first-appearance index. -/
structure Track where
  name : String
  spawned_on : Nat
deriving DecidableEq, Inhabited

/-- Modelled from the spec: an Instance (sleap.instance, not in the sources)
is an ordered sequence of 2D points, one per skeleton node with a missing
sentinel, an optional Track reference and, for predicted instances, a
detection score. -/
structure PoseInstance where
  points : List (Option (ℚ × ℚ))
  track : Option Track
  score : Option ℚ
deriving DecidableEq, Inhabited

/-- Modelled from the spec: a LabeledFrame (sleap.instance, not in the
sources) is a (video, frame_idx) pair plus an ordered sequence of
instances. -/
structure LabeledFrame where
  video : Video
  frame_idx : Nat
  instances : List PoseInstance
deriving DecidableEq, Inhabited

/-- Modelled from the spec: the Labels root aggregate (sleap.io.dataset, not
in the sources): ordered sequences of videos, tracks and labeled frames plus
the (usually singleton) skeleton. -/
structure Labels where
  videos : List Video
  skeleton : Skeleton
  tracks : List Track
  labeled_frames : List LabeledFrame
deriving DecidableEq, Inhabited

/-- The referential-integrity invariant of the Labels aggregate per the spec:
every frame's video is in the videos collection and every instance's track,
when present, is in the tracks collection. -/
def Labels.wellFormed (labels : Labels) : Bool :=
  labels.labeled_frames.all fun lf =>
    labels.videos.contains lf.video &&
    lf.instances.all fun inst =>
      match inst.track with
      | none => true
      | some t => labels.tracks.contains t

/-- A serialized instance record inside the binary container: points, an
optional track index into the track table and an optional score. -/
structure SerInstance where
  points : List (Option (ℚ × ℚ))
  trackIdx : Option Nat
  score : Option ℚ
deriving DecidableEq, Inhabited

/-- A serialized frame record in the binary container: a video index into the
video table, the frame index and the serialized instances. -/
structure SerFrame where
  videoIdx : Nat
  frame_idx : Nat
  instances : List SerInstance
deriving DecidableEq, Inhabited

/-- Modelled from the spec: the logical content of the binary-container
(HDF5 v1 / .slp) file written by the LabelsV1Adaptor (sleap.io.format.hdf5,
not in the sources): flat tables for videos, skeleton nodes and edges and
tracks, plus frame records whose cross references are stored as indices. -/
structure HDF5FileV1 where
  videos : List Video
  nodeNames : List String
  edgeInds : List (Nat × Nat)
  tracks : List Track
  frames : List SerFrame
deriving DecidableEq, Inhabited

def serializeInstance (tracks : List Track) (inst : PoseInstance) : SerInstance :=
  { points := inst.points
    trackIdx := inst.track.map fun t => tracks.indexOf t
    score := inst.score }

def serializeFrame (videos : List Video) (tracks : List Track)
    (lf : LabeledFrame) : SerFrame :=
  { videoIdx := videos.indexOf lf.video
    frame_idx := lf.frame_idx
    instances := lf.instances.map (serializeInstance tracks) }

/-- Modelled from the spec: LabelsV1Adaptor.write flattens the canonical model
into the container's tables, replacing object references by table indices. -/
def labelsV1_write (labels : Labels) : HDF5FileV1 :=
  { videos := labels.videos
    nodeNames := labels.skeleton.nodeNames
    edgeInds := labels.skeleton.edgeInds
    tracks := labels.tracks
    frames := labels.labeled_frames.map
      (serializeFrame labels.videos labels.tracks) }

def deserializeInstance (tracks : List Track) (si : SerInstance) : PoseInstance :=
  { points := si.points
    track := si.trackIdx.bind fun i => tracks[i]?
    score := si.score }

def deserializeFrame (videos : List Video) (tracks : List Track)
    (sf : SerFrame) : LabeledFrame :=
  { video := (videos[sf.videoIdx]?).getD default
    frame_idx := sf.frame_idx
    instances := sf.instances.map (deserializeInstance tracks) }

/-- Modelled from the spec: LabelsV1Adaptor.read materializes the canonical
model back from the container tables, resolving stored indices to the shared
video and track objects. -/
def labelsV1_read (f : HDF5FileV1) : Labels :=
  { videos := f.videos
    skeleton := { nodeNames := f.nodeNames, edgeInds := f.edgeInds }
    tracks := f.tracks
    labeled_frames := f.frames.map (deserializeFrame f.videos f.tracks) }

/-- The Python exception class that a typed format-layer error surfaces as. -/
inductive ErrKind where
  | typeError
  | fileNotFound
  | valueError
  | readError
deriving DecidableEq, Inhabited

/-- Modelled from the spec: the typed error taxonomy of the dispatch layer
(sleap.io.format.dispatch, not in the sources): MissingFile when the path
does not exist, NoMatchingAdaptor when no registered probe succeeds (a
TypeError-class error), FailedRead when the chosen adaptor cannot parse. -/
inductive FormatError where
  | missingFile
  | noMatchingAdaptor
  | failedRead
deriving DecidableEq, Inhabited

def FormatError.errKind : FormatError → ErrKind
  | .missingFile => .fileNotFound
  | .noMatchingAdaptor => .typeError
  | .failedRead => .readError

/-- Modelled from the spec: a format adaptor (sleap.io.format.adaptor, not in
the sources) as seen by the read path: a format name, the cheap can_read
probe on the opened file content, and the read logic, which either produces
the canonical object or fails. -/
structure Adaptor (σ α : Type) where
  name : String
  canRead : σ → Bool
  readFn : σ → Option α
deriving Inhabited

/-- Modelled from the spec: the dispatch registry holds an ordered list of
registered adaptors for one object kind. -/
structure Dispatch (σ α : Type) where
  adaptors : List (Adaptor σ α)
deriving Inhabited

/-- Running one adaptor's read logic: a parse failure is surfaced as a typed
error rather than a crash. -/
def applyAdaptor {σ α : Type} (a : Adaptor σ α) (content : σ) :
    Except FormatError α :=
  match a.readFn content with
  | none => .error .failedRead
  | some x => .ok x

/-- Modelled from the spec: Dispatch.read with an explicit as_format. The
filesystem is a partial map from paths to file contents; a missing path is
the MissingFile condition.  With a concrete format name only that adaptor is
considered; with the "*" wildcard the registered adaptors are probed in
registration order via can_read and the first success is used; if none
matches the read fails with the TypeError-class NoMatchingAdaptor error. -/
def Dispatch.readAs {σ α : Type} (disp : Dispatch σ α) (fs : String → Option σ)
    (path : String) (asFormat : String) : Except FormatError α :=
  match fs path with
  | none => .error .missingFile
  | some content =>
    let cands := if asFormat = "*" then disp.adaptors
      else disp.adaptors.filter fun a => a.name = asFormat
    match cands.find? (fun a => a.canRead content) with
    | none => .error .noMatchingAdaptor
    | some a => applyAdaptor a content

/-- Dispatch.read with the format unspecified defaults to the wildcard. -/
def Dispatch.read {σ α : Type} (disp : Dispatch σ α) (fs : String → Option σ)
    (path : String) : Except FormatError α :=
  disp.readAs fs path "*"

/-- Modelled from the spec: read_safely converts a raised failure into a
returned (result, error) pair, except for MissingFile which always
propagates. -/
def Dispatch.read_safely {σ α : Type} (disp : Dispatch σ α)
    (fs : String → Option σ) (path : String) :
    Except FormatError (Option α × Option FormatError) :=
  match disp.read fs path with
  | .error .missingFile => .error .missingFile
  | .error e => .ok (none, some e)
  | .ok x => .ok (some x, none)

/-- All instances of the aggregate, in frame order (Labels.instances). -/
def Labels.allInstances (labels : Labels) : List PoseInstance :=
  labels.labeled_frames.flatMap fun lf => lf.instances

/-- A data array of the generic scientific container: a name, a role type tag
and a shape. -/
structure NixDataArray where
  arrayName : String
  typeName : String
  shape : List Nat
deriving DecidableEq, Inhabited

/-- The top-level metadata section of the scientific container. -/
structure NixSection where
  format : String
  writer : String
deriving DecidableEq, Inhabited

/-- A block of tracking results in the scientific container. -/
structure NixBlock where
  typeName : String
  dataArrays : List NixDataArray
deriving DecidableEq, Inhabited

/-- The written scientific-container file: metadata sections and blocks. -/
structure NixFile where
  sections : List NixSection
  blocks : List NixBlock
deriving DecidableEq, Inhabited

/-- Number of instance records written for the target video: one per instance
of every labeled frame of that video. -/
def nixInstanceCount (labels : Labels) (v : Video) : Nat :=
  ((labels.labeled_frames.filter fun lf => lf.video == v).map
    fun lf => lf.instances.length).sum

/-- The container content written for a chosen target video, with the format
tag in the top-level metadata section, one tracking-results block, and the
instance-position data array with one row per instance record, the two
coordinates on the middle axis and one entry per skeleton node on the last
axis (the last-axis layout is pinned by test_nix_adaptor, which asserts
shape[2] == len(nodes)), plus the parallel frame-index array. -/
def nixFileFor (labels : Labels) (v : Video) : NixFile :=
  { sections := [{ format := "nix.tracking", writer := "sleap" }]
    blocks := [{ typeName := "nix.tracking_results"
                 dataArrays :=
                   [{ arrayName := "position"
                      typeName := "nix.tracking.instance_position"
                      shape := [nixInstanceCount labels v, 2,
                        labels.skeleton.nodeNames.length] },
                    { arrayName := "frame"
                      typeName := "nix.tracking.instance_frameidx"
                      shape := [nixInstanceCount labels v] }] }] }

/-- Modelled from the spec: NixAdaptor.write (sleap.io.format.nix, not in the
sources).  Without an explicit video the target is inferred only when the
model has exactly one video; a model with no video or more than one raises a
value error, as does an explicit video that is not in the model. -/
def NixAdaptor.write (labels : Labels) (video : Option Video) :
    Except ErrKind NixFile :=
  match video with
  | none =>
    match labels.videos with
    | [v] => .ok (nixFileFor labels v)
    | _ => .error .valueError
  | some v =>
    if v ∈ labels.videos then .ok (nixFileFor labels v)
    else .error .valueError

/-- A processing module of the neurophysiology container, keyed by the video
filename, holding the pose data written for that video. -/
structure NWBModule where
  videoFilename : String
  nodeNames : List String
  edgeInds : List (Nat × Nat)
  trackNames : List String
  frames : List SerFrame
deriving DecidableEq, Inhabited

/-- The neurophysiology-container file: an ordered list of processing
modules. -/
structure NWBFile where
  modules : List NWBModule
deriving DecidableEq, Inhabited

/-- The module written for one video: its frames serialized against the
module-local video table and the shared track table. -/
def nwbModuleFor (labels : Labels) (v : Video) : NWBModule :=
  { videoFilename := v.filename
    nodeNames := labels.skeleton.nodeNames
    edgeInds := labels.skeleton.edgeInds
    trackNames := labels.tracks.map fun t => t.name
    frames := (labels.labeled_frames.filter fun lf => lf.video == v).map
      (serializeFrame [v] labels.tracks) }

/-- Modelled from the spec: NDXPoseAdaptor.write (sleap.io.format.ndx_pose,
not in the sources).  Writing a model with no instances fails with a
TypeError-class error before anything is written (test_nwb expects TypeError
here, not ValueError); otherwise one module per video is appended to the
existing destination, skipping modules whose key already exists
(append-without-duplication). -/
def NDXPoseAdaptor.write (labels : Labels) (existing : Option NWBFile) :
    Except ErrKind NWBFile :=
  if labels.allInstances = [] then .error .typeError
  else
    let base := existing.getD { modules := [] }
    .ok { modules := base.modules ++
      ((labels.videos.map (nwbModuleFor labels)).filter fun m =>
        !(base.modules.any fun m0 => m0.videoFilename == m.videoFilename)) }

/-- Modelled from the spec: NDXPoseAdaptor.read reconstructs the canonical
model from the container: one video per module, the skeleton and the track
table from the first module, and the frames of every module resolved against
that module's video. -/
def NDXPoseAdaptor.read (f : NWBFile) : Labels :=
  { videos := f.modules.map fun m => { filename := m.videoFilename }
    skeleton := { nodeNames := (f.modules.getD 0 default).nodeNames
                  edgeInds := (f.modules.getD 0 default).edgeInds }
    tracks := (f.modules.getD 0 default).trackNames.map
      fun nm => { name := nm, spawned_on := 0 }
    labeled_frames := f.modules.flatMap fun m =>
      m.frames.map (deserializeFrame [{ filename := m.videoFilename }]
        ((f.modules.getD 0 default).trackNames.map
          fun nm => { name := nm, spawned_on := 0 })) }

/-- A third-party CSV table: the subject and node names from the header and,
for every frame row, per subject and per node an optional 2D point (missing
coordinates are the not-a-number sentinel in the file). -/
structure DLCTable where
  subjects : List String
  nodes : List String
  rows : List (List (List (Option (ℚ × ℚ))))
deriving Inhabited

/-- Whether a subject has at least one non-missing coordinate in a row. -/
def subjectHasData (row : List (List (Option (ℚ × ℚ)))) (s : Nat) : Bool :=
  (row.getD s []).any fun p => p.isSome

/-- Modelled from the spec: track inference of the CSV importers
(sleap.io.format.deeplabcut, not in the sources): one track per subject that
appears, spawned on the first frame where that subject has any non-missing
coordinate; a subject with no data in any frame yields no track. -/
def dlcTrackFor (table : DLCTable) (s : Nat) : Option Track :=
  match (List.range table.rows.length).find?
      (fun i => subjectHasData (table.rows.getD i []) s) with
  | none => none
  | some i => some { name := table.subjects.getD s "", spawned_on := i }

/-- Modelled from the spec: the frames produced by the CSV importers.  A row
whose coordinates are all missing for every subject is skipped entirely; in a
kept frame only subjects with data become instances. -/
def dlcReadFrames (table : DLCTable) : List LabeledFrame :=
  (List.range table.rows.length).filterMap fun i =>
    if (table.rows.getD i []).any (fun sub => sub.any fun p => p.isSome) then
      some { video := { filename := "labeled-data" }
             frame_idx := i
             instances := (List.range table.subjects.length).filterMap fun s =>
               if subjectHasData (table.rows.getD i []) s then
                 some { points := (table.rows.getD i []).getD s []
                        track := dlcTrackFor table s
                        score := none }
               else none }
    else none

/-- Modelled from the spec: DeepLabCut-style CSV read into the canonical
model. -/
def DeepLabCutAdaptor.read (table : DLCTable) : Labels :=
  { videos := [{ filename := "labeled-data" }]
    skeleton := { nodeNames := table.nodes, edgeInds := [] }
    tracks := (List.range table.subjects.length).filterMap (dlcTrackFor table)
    labeled_frames := dlcReadFrames table }

theorem tfOneHotRow_length (ind : Int) (n : Nat) : (tfOneHotRow ind n).length = n := by
  unfold tfOneHotRow
  rw [List.length_map, List.length_range]

theorem tfOneHotRow_getD (ind : Int) (n : Nat) (c : Nat) (hc : c < n) :
    (tfOneHotRow ind n).getD c 0 = if ind = (c : Int) then 1 else 0 := by
  unfold tfOneHotRow
  rw [List.getD_eq_getElem?_getD, List.getElem?_map, List.getElem?_range hc]
  rfl

theorem make_class_vectors_length (inds : List Int) (n : Nat) :
    (make_class_vectors inds n).length = inds.length := by
  simp [make_class_vectors, tfOneHot]

theorem make_class_vectors_getD (inds : List Int) (n : Nat) (i : Nat)
    (hi : i < inds.length) :
    (make_class_vectors inds n).getD i [] = tfOneHotRow (inds.getD i 0) n := by
  simp [make_class_vectors, tfOneHot, List.getD, List.getElem?_map,
    List.getElem?_eq_getElem hi]

theorem tfOneHotRow_out_of_range (ind : Int) (n : Nat)
    (h : ind < 0 ∨ (n : Int) ≤ ind) : tfOneHotRow ind n = List.replicate n 0 := by
  unfold tfOneHotRow
  rw [List.eq_replicate_iff]
  refine ⟨by rw [List.length_map, List.length_range], ?_⟩
  intro b hb
  rw [List.mem_map] at hb
  obtain ⟨c, hc, rfl⟩ := hb
  rw [List.mem_range] at hc
  rw [if_neg]
  intro hEq
  rcases h with h | h <;> omega

/-- C4: for every int32 index tensor and positive n_classes, make_class_vectors
has shape (n_instances, n_classes); a row for index -1 is all zeros and a row
for a valid index k is one-hot at position k. -/
theorem make_class_vectors_spec (class_inds : List Int) (n_classes : Nat)
    (hn : 0 < n_classes) :
    (make_class_vectors class_inds n_classes).length = class_inds.length ∧
    ∀ i : Nat, i < class_inds.length →
      ((make_class_vectors class_inds n_classes).getD i []).length = n_classes ∧
      (class_inds.getD i 0 = -1 →
        (make_class_vectors class_inds n_classes).getD i [] =
          List.replicate n_classes 0) ∧
      ∀ k : Nat, k < n_classes → class_inds.getD i 0 = (k : Int) →
        ((make_class_vectors class_inds n_classes).getD i []).getD k 0 = 1 ∧
        ∀ j : Nat, j < n_classes → j ≠ k →
          ((make_class_vectors class_inds n_classes).getD i []).getD j 0 = 0 := by
  refine ⟨make_class_vectors_length class_inds n_classes, ?_⟩
  intro i hi
  rw [make_class_vectors_getD class_inds n_classes i hi]
  refine ⟨tfOneHotRow_length _ _, ?_, ?_⟩
  · intro hneg
    apply tfOneHotRow_out_of_range
    left
    rw [hneg]
    decide
  · intro k hk hkind
    constructor
    · rw [tfOneHotRow_getD _ _ _ hk, if_pos hkind]
    · intro j hj hjk
      have hne : ¬((k : Int) = (j : Int)) := by omega
      rw [tfOneHotRow_getD _ _ _ hj, hkind, if_neg hne]

theorem make_class_vectors_spec_witness :
    (0 : Nat) < 3 ∧
    ((make_class_vectors [-1, 2, 0] 3).length = ([-1, 2, 0] : List Int).length ∧
    ∀ i : Nat, i < ([-1, 2, 0] : List Int).length →
      ((make_class_vectors [-1, 2, 0] 3).getD i []).length = 3 ∧
      (([-1, 2, 0] : List Int).getD i 0 = -1 →
        (make_class_vectors [-1, 2, 0] 3).getD i [] = List.replicate 3 0) ∧
      ∀ k : Nat, k < 3 → ([-1, 2, 0] : List Int).getD i 0 = (k : Int) →
        ((make_class_vectors [-1, 2, 0] 3).getD i []).getD k 0 = 1 ∧
        ∀ j : Nat, j < 3 → j ≠ k →
          ((make_class_vectors [-1, 2, 0] 3).getD i []).getD j 0 = 0) :=
  ⟨by decide, make_class_vectors_spec [-1, 2, 0] 3 (by decide)⟩

/-- C10: any out-of-range class index, not only -1 but any negative index or
any index at least n_classes, yields an all-zero row while the output shape
stays (n_instances, n_classes); no partial one-hot row is ever produced. -/
theorem make_class_vectors_out_of_range (class_inds : List Int) (n_classes : Nat) :
    (make_class_vectors class_inds n_classes).length = class_inds.length ∧
    ∀ i : Nat, i < class_inds.length →
      ((make_class_vectors class_inds n_classes).getD i []).length = n_classes ∧
      ((class_inds.getD i 0 < 0 ∨ (n_classes : Int) ≤ class_inds.getD i 0) →
        (make_class_vectors class_inds n_classes).getD i [] =
          List.replicate n_classes 0) := by
  refine ⟨make_class_vectors_length class_inds n_classes, ?_⟩
  intro i hi
  rw [make_class_vectors_getD class_inds n_classes i hi]
  exact ⟨tfOneHotRow_length _ _, tfOneHotRow_out_of_range _ _⟩

theorem le_listMax : ∀ {L : List ℚ} {x : ℚ}, x ∈ L → x ≤ listMax L
  | [y], x, h => by
      rw [List.mem_singleton] at h
      subst h
      exact le_refl _
  | a :: b :: t, x, h => by
      simp only [listMax]
      rcases List.mem_cons.mp h with rfl | h2
      · exact le_max_left _ _
      · exact le_trans (le_listMax h2) (le_max_right _ _)

theorem listMax_mem : ∀ {L : List ℚ}, L ≠ [] → listMax L ∈ L
  | [x], _ => by
      simp only [listMax]
      exact List.mem_singleton_self x
  | a :: b :: t, _ => by
      simp only [listMax]
      rcases max_cases a (listMax (b :: t)) with ⟨hEq, _⟩ | ⟨hEq, _⟩
      · rw [hEq]
        exact List.mem_cons_self _ _
      · rw [hEq]
        exact List.mem_cons_of_mem _ (listMax_mem (by simp))

theorem listMax_ite_eq_filter (l : List Nat) (p : Nat → Bool) (f : Nat → ℚ)
    (hf : ∀ i ∈ l, 0 ≤ f i) (hne : l.filter p ≠ []) :
    listMax (l.map fun i => if p i then f i else 0) =
      listMax ((l.filter p).map f) := by
  have hl : l ≠ [] := by
    intro h
    subst h
    simp at hne
  have hL1ne : (l.map fun i => if p i then f i else 0) ≠ [] := by
    simpa using hl
  have hL2ne : ((l.filter p).map f) ≠ [] := by
    simpa using hne
  apply le_antisymm
  · obtain ⟨i, hi, hEq⟩ := List.mem_map.mp (listMax_mem hL1ne)
    rw [← hEq]
    by_cases hp : p i = true
    · rw [if_pos hp]
      exact le_listMax (List.mem_map.mpr ⟨i, List.mem_filter.mpr ⟨hi, hp⟩, rfl⟩)
    · rw [if_neg hp]
      obtain ⟨j, hj⟩ := List.exists_mem_of_ne_nil _ hne
      have hjl : j ∈ l := (List.mem_filter.mp hj).1
      calc (0 : ℚ) ≤ f j := hf j hjl
        _ ≤ listMax ((l.filter p).map f) :=
            le_listMax (List.mem_map.mpr ⟨j, hj, rfl⟩)
  · obtain ⟨i, hi, hEq⟩ := List.mem_map.mp (listMax_mem hL2ne)
    rw [← hEq]
    have hfi : f i = if p i then f i else 0 :=
      (if_pos (List.mem_filter.mp hi).2).symm
    rw [hfi]
    exact le_listMax (List.mem_map.mpr ⟨i, (List.mem_filter.mp hi).1, rfl⟩)

theorem make_class_vectors_out_of_range_witness :
    (make_class_vectors [-7, 5, 1] 3).length = ([-7, 5, 1] : List Int).length ∧
    ∀ i : Nat, i < ([-7, 5, 1] : List Int).length →
      ((make_class_vectors [-7, 5, 1] 3).getD i []).length = 3 ∧
      ((([-7, 5, 1] : List Int).getD i 0 < 0 ∨
          ((3 : Nat) : Int) ≤ ([-7, 5, 1] : List Int).getD i 0) →
        (make_class_vectors [-7, 5, 1] 3).getD i [] = List.replicate 3 0) :=
  make_class_vectors_out_of_range [-7, 5, 1] 3

theorem getD_map_of_lt {α β : Type} (f : α → β) (l : List α) (i : Nat)
    (hi : i < l.length) (d : β) (e : α) : (l.map f).getD i d = f (l.getD i e) := by
  rw [List.getD_eq_getElem?_getD, List.getElem?_map, List.getElem?_eq_getElem hi,
    List.getD_eq_getElem?_getD, List.getElem?_eq_getElem hi]
  rfl

theorem getD_mem_of_lt {α : Type} (l : List α) (i : Nat) (hi : i < l.length)
    (d : α) : l.getD i d ∈ l := by
  rw [List.getD_eq_getElem?_getD, List.getElem?_eq_getElem hi]
  exact List.getElem_mem hi

theorem getD_range_of_lt (n i : Nat) (hi : i < n) : (List.range n).getD i 0 = i := by
  rw [List.getD_eq_getElem?_getD, List.getElem?_range hi]
  rfl

theorem tfOneHotRowQ_getD (ind : Int) (n : Nat) (c : Nat) (hc : c < n) :
    ((tfOneHotRow ind n).map fun (z : Int) => (z : ℚ)).getD c 0 =
      if ind = (c : Int) then 1 else 0 := by
  rw [getD_map_of_lt _ _ c (by rw [tfOneHotRow_length]; exact hc) 0 0,
    tfOneHotRow_getD ind n c hc]
  by_cases h : ind = (c : Int)
  · rw [if_pos h, if_pos h]
    rfl
  · rw [if_neg h, if_neg h]
    rfl

theorem zipWith_mask_cv_eq (pixel : List ℚ) (class_inds : List Int)
    (n_classes : Nat) (threshold : ℚ) (c : Nat) (hc : c < n_classes)
    (hlen : pixel.length = class_inds.length) :
    List.zipWith (fun m r => m * r.getD c 0)
      (pixel.map fun v => if threshold < v then v / pixel.sum else 0)
      ((make_class_vectors class_inds n_classes).map fun r => r.map fun (z : Int) => (z : ℚ))
    = (List.range class_inds.length).map fun i =>
        if decide (class_inds.getD i 0 = (c : Int)) then
          (if threshold < pixel.getD i 0 then pixel.getD i 0 / pixel.sum else 0)
        else 0 := by
  apply List.ext_getElem
  · rw [List.length_zipWith, List.length_map, List.length_map,
      make_class_vectors_length, List.length_map, List.length_range, hlen,
      Nat.min_self]
  · intro i h1 h2
    rw [List.length_zipWith, List.length_map, List.length_map,
      make_class_vectors_length, hlen, Nat.min_self] at h1
    rw [List.getElem_zipWith, List.getElem_map, List.getElem_map, List.getElem_map,
      List.getElem_range]
    have hip : i < pixel.length := by rw [hlen]; exact h1
    have hic : i < (make_class_vectors class_inds n_classes).length := by
      rw [make_class_vectors_length]; exact h1
    have hrow : (make_class_vectors class_inds n_classes)[i] =
        tfOneHotRow (class_inds.getD i 0) n_classes := by
      rw [← make_class_vectors_getD class_inds n_classes i h1,
        List.getD_eq_getElem?_getD, List.getElem?_eq_getElem hic]
      rfl
    rw [hrow, tfOneHotRowQ_getD _ _ c hc]
    have hpix : pixel[i] = pixel.getD i 0 := by
      rw [List.getD_eq_getElem?_getD, List.getElem?_eq_getElem hip]
      rfl
    rw [hpix]
    by_cases h : class_inds.getD i 0 = (c : Int)
    · simp [h]
    · simp [h]

/-- C5: make_class_maps has shape (grid_height, grid_width, n_classes), and for
every class channel c populated by at least one instance, the pixel value is
the maximum over the instances of class c of the instance confidence divided by
the sum of all instance confidences at that pixel, the contribution being
replaced by zero wherever the raw confidence does not exceed the threshold. -/
theorem make_class_maps_spec (confmaps : List (List (List ℚ))) (class_inds : List Int)
    (n_classes : Nat) (threshold : ℚ)
    (hshape : ∀ row ∈ confmaps, ∀ pixel ∈ row, pixel.length = class_inds.length)
    (hnn : ∀ row ∈ confmaps, ∀ pixel ∈ row, ∀ v ∈ pixel, 0 ≤ v)
    (hth : 0 ≤ threshold) :
    (make_class_maps confmaps class_inds n_classes threshold).length =
      confmaps.length ∧
    ∀ g : Nat, g < confmaps.length →
      ((make_class_maps confmaps class_inds n_classes threshold).getD g []).length
        = (confmaps.getD g []).length ∧
      ∀ w : Nat, w < (confmaps.getD g []).length →
        (((make_class_maps confmaps class_inds n_classes threshold).getD g
          []).getD w []).length = n_classes ∧
        ∀ c : Nat, c < n_classes →
          ((List.range class_inds.length).filter
            fun i => decide (class_inds.getD i 0 = (c : Int))) ≠ [] →
          (((make_class_maps confmaps class_inds n_classes threshold).getD g
            []).getD w []).getD c 0 =
            listMax ((((List.range class_inds.length).filter
              fun i => decide (class_inds.getD i 0 = (c : Int)))).map
              fun i =>
                if threshold < ((confmaps.getD g []).getD w []).getD i 0 then
                  ((confmaps.getD g []).getD w []).getD i 0 /
                    ((confmaps.getD g []).getD w []).sum
                else 0) := by
  constructor
  · unfold make_class_maps
    rw [List.length_map]
  intro g hg
  have hg1 : (make_class_maps confmaps class_inds n_classes threshold).getD g [] =
      (confmaps.getD g []).map fun pixel =>
        (List.range n_classes).map fun c =>
          listMax (List.zipWith (fun m r => m * r.getD c 0)
            (pixel.map fun v => if threshold < v then v / pixel.sum else 0)
            ((make_class_vectors class_inds n_classes).map fun r =>
              r.map fun (z : Int) => (z : ℚ))) := by
    unfold make_class_maps
    exact getD_map_of_lt _ confmaps g hg [] []
  rw [hg1]
  constructor
  · rw [List.length_map]
  intro w hw
  have hrowmem : confmaps.getD g [] ∈ confmaps := getD_mem_of_lt confmaps g hg []
  have hpixmem : (confmaps.getD g []).getD w [] ∈ confmaps.getD g [] :=
    getD_mem_of_lt (confmaps.getD g []) w hw []
  have hpixlen : ((confmaps.getD g []).getD w []).length = class_inds.length :=
    hshape _ hrowmem _ hpixmem
  have hpixnn : ∀ v ∈ (confmaps.getD g []).getD w [], 0 ≤ v :=
    hnn _ hrowmem _ hpixmem
  rw [getD_map_of_lt _ (confmaps.getD g []) w hw [] []]
  constructor
  · rw [List.length_map, List.length_range]
  intro c hc hfil
  rw [getD_map_of_lt _ (List.range n_classes) c
    (by rw [List.length_range]; exact hc) 0 0, getD_range_of_lt n_classes c hc]
  rw [zipWith_mask_cv_eq _ class_inds n_classes threshold c hc hpixlen]
  apply listMax_ite_eq_filter
  · intro i hi
    rw [List.mem_range] at hi
    by_cases h : threshold < ((confmaps.getD g []).getD w []).getD i 0
    · rw [if_pos h]
      have hip : i < ((confmaps.getD g []).getD w []).length := by
        rw [hpixlen]; exact hi
      have hiv : ((confmaps.getD g []).getD w []).getD i 0 ∈
          (confmaps.getD g []).getD w [] :=
        getD_mem_of_lt ((confmaps.getD g []).getD w []) i hip 0
      exact div_nonneg (hpixnn _ hiv) (List.sum_nonneg hpixnn)
    · rw [if_neg h]
  · exact hfil

theorem make_class_maps_spec_witness :
    ((∀ row ∈ [[[(1 : ℚ), 2]]], ∀ pixel ∈ row,
        pixel.length = ([0, 1] : List Int).length) ∧
      (∀ row ∈ [[[(1 : ℚ), 2]]], ∀ pixel ∈ row, ∀ v ∈ pixel, (0 : ℚ) ≤ v) ∧
      (0 : ℚ) ≤ 0) ∧
    ((make_class_maps [[[(1 : ℚ), 2]]] [0, 1] 2 0).length =
      ([[[(1 : ℚ), 2]]] : List (List (List ℚ))).length ∧
    ∀ g : Nat, g < ([[[(1 : ℚ), 2]]] : List (List (List ℚ))).length →
      ((make_class_maps [[[(1 : ℚ), 2]]] [0, 1] 2 0).getD g []).length
        = (([[[(1 : ℚ), 2]]] : List (List (List ℚ))).getD g []).length ∧
      ∀ w : Nat, w < (([[[(1 : ℚ), 2]]] : List (List (List ℚ))).getD g []).length →
        (((make_class_maps [[[(1 : ℚ), 2]]] [0, 1] 2 0).getD g
          []).getD w []).length = 2 ∧
        ∀ c : Nat, c < 2 →
          ((List.range ([0, 1] : List Int).length).filter
            fun i => decide (([0, 1] : List Int).getD i 0 = (c : Int))) ≠ [] →
          (((make_class_maps [[[(1 : ℚ), 2]]] [0, 1] 2 0).getD g
            []).getD w []).getD c 0 =
            listMax ((((List.range ([0, 1] : List Int).length).filter
              fun i => decide (([0, 1] : List Int).getD i 0 = (c : Int)))).map
              fun i =>
                if (0 : ℚ) < ((([[[(1 : ℚ), 2]]] : List (List (List ℚ))).getD g
                    []).getD w []).getD i 0 then
                  ((([[[(1 : ℚ), 2]]] : List (List (List ℚ))).getD g
                    []).getD w []).getD i 0 /
                    ((([[[(1 : ℚ), 2]]] : List (List (List ℚ))).getD g
                      []).getD w []).sum
                else 0)) :=
  ⟨⟨by decide, by decide, by decide⟩,
    make_class_maps_spec [[[(1 : ℚ), 2]]] [0, 1] 2 0
      (by decide) (by decide) (by decide)⟩

theorem deserialize_serialize_instance (tracks : List Track) (inst : PoseInstance)
    (h : ∀ t : Track, inst.track = some t → t ∈ tracks) :
    deserializeInstance tracks (serializeInstance tracks inst) = inst := by
  obtain ⟨points, track, score⟩ := inst
  cases track with
  | none => rfl
  | some t =>
      have ht : t ∈ tracks := h t rfl
      simp [serializeInstance, deserializeInstance, List.getElem?_indexOf ht]

theorem deserialize_serialize_frame (videos : List Video) (tracks : List Track)
    (lf : LabeledFrame) (hv : lf.video ∈ videos)
    (hi : ∀ inst ∈ lf.instances, ∀ t : Track, inst.track = some t → t ∈ tracks) :
    deserializeFrame videos tracks (serializeFrame videos tracks lf) = lf := by
  obtain ⟨video, frame_idx, instances⟩ := lf
  simp only [serializeFrame, deserializeFrame, List.map_map]
  refine congrArg₂ (fun v li => LabeledFrame.mk v frame_idx li) ?_ ?_
  · rw [List.getElem?_indexOf hv]
    rfl
  · rw [List.map_eq_map_iff.mpr]
    · exact List.map_id instances
    · intro inst hmem
      exact deserialize_serialize_instance tracks inst (hi inst hmem)

theorem labelsV1_read_write_id (labels : Labels) (h : labels.wellFormed = true) :
    labelsV1_read (labelsV1_write labels) = labels := by
  obtain ⟨videos, skeleton, tracks, frames⟩ := labels
  simp only [Labels.wellFormed, List.all_eq_true, Bool.and_eq_true] at h
  simp only [labelsV1_write, labelsV1_read, List.map_map]
  refine congrArg₂ (fun sk fr => Labels.mk videos sk tracks fr) rfl ?_
  rw [List.map_eq_map_iff.mpr, List.map_id]
  intro lf hmem
  obtain ⟨hv, hins⟩ := h lf hmem
  refine deserialize_serialize_frame videos tracks lf ?_ ?_
  · exact List.mem_of_elem_eq_true hv
  · intro inst hinst t ht
    have := hins inst hinst
    rw [ht] at this
    exact List.mem_of_elem_eq_true this

theorem flatMap_congr {α β : Type} (l : List α) (f g : α → List β)
    (h : ∀ a ∈ l, f a = g a) : l.flatMap f = l.flatMap g := by
  induction l with
  | nil => rfl
  | cons a t ih =>
      rw [List.flatMap_cons, List.flatMap_cons, h a (List.mem_cons_self a t),
        ih fun b hb => h b (List.mem_cons_of_mem a hb)]

theorem count_flatMap {α β : Type} [DecidableEq β] (l : List α)
    (f : α → List β) (x : β) :
    (l.flatMap f).count x = (l.map fun a => (f a).count x).sum := by
  induction l with
  | nil => simp
  | cons a t ih => simp [List.flatMap_cons, List.count_append, ih]

theorem count_filter_eq {α : Type} [DecidableEq α] (l : List α) (p : α → Bool)
    (x : α) :
    (l.filter p).count x = if p x = true then l.count x else 0 := by
  by_cases hp : p x = true
  · rw [if_pos hp, List.count_filter hp]
  · rw [if_neg hp, List.count_eq_zero]
    intro hmem
    exact hp (List.of_mem_filter hmem)

theorem sum_map_ite_count {κ : Type} [DecidableEq κ] (vs : List κ) (k : κ)
    (c : Nat) :
    (vs.map fun v => if (k == v) = true then c else 0).sum = c * vs.count k := by
  induction vs with
  | nil => simp
  | cons v t ih =>
      rw [List.map_cons, List.sum_cons, ih, List.count_cons]
      by_cases h : k = v
      · subst h
        simp [Nat.mul_add]
        omega
      · have h1 : (k == v) = false := by simp [h]
        have h2 : (v == k) = false := by simp [Ne.symm h]
        simp [h1, h2]

theorem partition_filter_perm (vs : List Video) (l : List LabeledFrame)
    (hnd : vs.Nodup) (hall : ∀ lf ∈ l, lf.video ∈ vs) :
    (vs.flatMap fun v => l.filter fun lf => lf.video == v).Perm l := by
  rw [List.perm_iff_count]
  intro x
  rw [count_flatMap]
  have hmap : (vs.map fun v => (l.filter fun lf => lf.video == v).count x)
      = vs.map fun v => if (x.video == v) = true then l.count x else 0 := by
    apply List.map_eq_map_iff.mpr
    intro v _
    exact count_filter_eq l (fun lf => lf.video == v) x
  rw [hmap, sum_map_ite_count]
  by_cases hx : x ∈ l
  · rw [List.count_eq_one_of_mem hnd (hall x hx), Nat.mul_one]
  · rw [List.count_eq_zero.mpr hx, Nat.zero_mul]

theorem nwb_deser_ser_triple (tracks rt : List Track) (v : Video)
    (lf : LabeledFrame) (hv : lf.video = v) :
    ((fun f => (f.video, f.frame_idx, f.instances.length))
      (deserializeFrame [Video.mk v.filename] rt
        (serializeFrame [v] tracks lf)))
    = (lf.video, lf.frame_idx, lf.instances.length) := by
  subst hv
  unfold serializeFrame deserializeFrame
  simp [List.indexOf_cons_self]

theorem ndx_write_ok_structure (labels : Labels) (f1 : NWBFile)
    (h : NDXPoseAdaptor.write labels none = .ok f1) :
    labels.allInstances ≠ [] ∧
    f1 = NWBFile.mk (labels.videos.map (nwbModuleFor labels)) := by
  by_cases hempty : labels.allInstances = []
  · rw [NDXPoseAdaptor.write, if_pos hempty] at h
    exact Except.noConfusion h
  · refine ⟨hempty, ?_⟩
    rw [NDXPoseAdaptor.write, if_neg hempty] at h
    simp only [Option.getD, List.any_nil, Bool.not_false, List.filter_true,
      List.nil_append, Except.ok.injEq] at h
    exact h.symm

theorem videos_ne_nil_of_instances (labels : Labels)
    (hwf : labels.wellFormed = true) (hne : labels.allInstances ≠ []) :
    labels.videos ≠ [] := by
  intro hv
  apply hne
  have hframes : labels.labeled_frames = [] := by
    cases hlf : labels.labeled_frames with
    | nil => rfl
    | cons lf t =>
        simp only [Labels.wellFormed, List.all_eq_true] at hwf
        have hall := hwf lf (by rw [hlf]; exact List.mem_cons_self _ _)
        rw [Bool.and_eq_true] at hall
        have hcont := hall.1
        rw [hv] at hcont
        simp at hcont
  unfold Labels.allInstances
  rw [hframes]
  rfl

/-- C1 counterexample: the neurophysiology-container adaptor supports both
read and write, yet its round trip does not preserve the track set: the
container does not record spawn frames, so a well-formed model whose track
is spawned on frame 5 reads back with that track spawned on 0 - a different
track set, refuting the claim's universal track-set preservation (the in-src
assert_read_labels_match accordingly compares only len(tracks)). -/
theorem nwb_round_trip_track_set_counterexample :
    NDXPoseAdaptor.write
      (Labels.mk [Video.mk "v"] (Skeleton.mk ["A"] []) [Track.mk "t" 5]
        [LabeledFrame.mk (Video.mk "v") 7
          [PoseInstance.mk [some (1, 2)] (some (Track.mk "t" 5)) none]]) none =
      .ok (NWBFile.mk [NWBModule.mk "v" ["A"] [] ["t"]
        [SerFrame.mk 0 7 [SerInstance.mk [some (1, 2)] (some 0) none]]]) ∧
    (Labels.mk [Video.mk "v"] (Skeleton.mk ["A"] []) [Track.mk "t" 5]
      [LabeledFrame.mk (Video.mk "v") 7
        [PoseInstance.mk [some (1, 2)] (some (Track.mk "t" 5)) none]]
      ).wellFormed = true ∧
    (NDXPoseAdaptor.read (NWBFile.mk [NWBModule.mk "v" ["A"] [] ["t"]
      [SerFrame.mk 0 7 [SerInstance.mk [some (1, 2)] (some 0) none]]])).tracks =
      [Track.mk "t" 0] ∧
    (Labels.mk [Video.mk "v"] (Skeleton.mk ["A"] []) [Track.mk "t" 5]
      [LabeledFrame.mk (Video.mk "v") 7
        [PoseInstance.mk [some (1, 2)] (some (Track.mk "t" 5)) none]]).tracks =
      [Track.mk "t" 5] ∧
    (NDXPoseAdaptor.read (NWBFile.mk [NWBModule.mk "v" ["A"] [] ["t"]
      [SerFrame.mk 0 7 [SerInstance.mk [some (1, 2)] (some 0) none]]])).tracks ≠
    (Labels.mk [Video.mk "v"] (Skeleton.mk ["A"] []) [Track.mk "t" 5]
      [LabeledFrame.mk (Video.mk "v") 7
        [PoseInstance.mk [some (1, 2)] (some (Track.mk "t" 5)) none]]).tracks :=
  ⟨rfl, by decide, rfl, rfl, by decide⟩

/-- C1 (amended): for every modelled adaptor that supports both read and
write - the binary container and the neurophysiology container - re-reading
a written well-formed model yields the same number of labeled frames, the
same number of instances in each frame, the same number of tracks, and the
same skeleton node and edge sets; the binary container additionally
preserves the track set exactly, while the neurophysiology container
preserves the track names but resets spawn frames, which its format does
not record.  For the neurophysiology container the frames are recovered as
the same (video, frame index, instance count) collection up to the
container's per-video grouping. -/
theorem round_trip_read_write_adaptors (labels : Labels)
    (hwf : labels.wellFormed = true) (hnd : labels.videos.Nodup) :
    ((labelsV1_read (labelsV1_write labels)).labeled_frames.length =
        labels.labeled_frames.length ∧
      (∀ i : Nat, i < labels.labeled_frames.length →
        ((labelsV1_read (labelsV1_write labels)).labeled_frames.getD i
          default).instances.length =
          (labels.labeled_frames.getD i default).instances.length) ∧
      (labelsV1_read (labelsV1_write labels)).tracks = labels.tracks ∧
      (labelsV1_read (labelsV1_write labels)).skeleton.nodeNames =
        labels.skeleton.nodeNames ∧
      (labelsV1_read (labelsV1_write labels)).skeleton.edgeInds =
        labels.skeleton.edgeInds) ∧
    (∀ f1 : NWBFile, NDXPoseAdaptor.write labels none = .ok f1 →
      ((NDXPoseAdaptor.read f1).labeled_frames.map fun lf =>
          (lf.video, lf.frame_idx, lf.instances.length)).Perm
        (labels.labeled_frames.map fun lf =>
          (lf.video, lf.frame_idx, lf.instances.length)) ∧
      (NDXPoseAdaptor.read f1).labeled_frames.length =
        labels.labeled_frames.length ∧
      (NDXPoseAdaptor.read f1).tracks.length = labels.tracks.length ∧
      ((NDXPoseAdaptor.read f1).tracks.map fun t => t.name) =
        (labels.tracks.map fun t => t.name) ∧
      (NDXPoseAdaptor.read f1).skeleton.nodeNames =
        labels.skeleton.nodeNames ∧
      (NDXPoseAdaptor.read f1).skeleton.edgeInds =
        labels.skeleton.edgeInds) := by
  constructor
  · rw [labelsV1_read_write_id labels hwf]
    exact ⟨rfl, fun i _ => rfl, rfl, rfl, rfl⟩
  intro f1 h
  obtain ⟨hne, hf1⟩ := ndx_write_ok_structure labels f1 h
  have hvne := videos_ne_nil_of_instances labels hwf hne
  have hall : ∀ lf ∈ labels.labeled_frames, lf.video ∈ labels.videos := by
    intro lf hmem
    simp only [Labels.wellFormed, List.all_eq_true] at hwf
    have hh := hwf lf hmem
    rw [Bool.and_eq_true] at hh
    exact List.mem_of_elem_eq_true hh.1
  rcases hv : labels.videos with _ | ⟨v0, rest⟩
  · exact absurd hv hvne
  have hM0 : (labels.videos.map (nwbModuleFor labels)).getD 0 default =
      nwbModuleFor labels v0 := by
    rw [hv]
    rfl
  subst hf1
  have hrd : NDXPoseAdaptor.read
      (NWBFile.mk (labels.videos.map (nwbModuleFor labels))) =
      Labels.mk (labels.videos.map fun v => Video.mk v.filename)
        (Skeleton.mk labels.skeleton.nodeNames labels.skeleton.edgeInds)
        (labels.tracks.map fun t => Track.mk t.name 0)
        ((labels.videos.map (nwbModuleFor labels)).flatMap fun m =>
          m.frames.map (deserializeFrame [Video.mk m.videoFilename]
            (labels.tracks.map fun t => Track.mk t.name 0))) := by
    unfold NDXPoseAdaptor.read
    rw [hM0]
    simp only [nwbModuleFor, List.map_map]
    rfl
  rw [hrd]
  have hframes : ((labels.videos.map (nwbModuleFor labels)).flatMap fun m =>
      m.frames.map (deserializeFrame [Video.mk m.videoFilename]
        (labels.tracks.map fun t => Track.mk t.name 0))).map
      (fun lf => (lf.video, lf.frame_idx, lf.instances.length)) =
      ((labels.videos.flatMap fun v =>
        labels.labeled_frames.filter fun lf => lf.video == v).map
        fun lf => (lf.video, lf.frame_idx, lf.instances.length)) := by
    rw [List.map_flatMap, List.flatMap_map, List.map_flatMap]
    apply flatMap_congr
    intro v _
    show (((labels.labeled_frames.filter fun lf => lf.video == v).map
      (serializeFrame [v] labels.tracks)).map
      (deserializeFrame [Video.mk v.filename]
        (labels.tracks.map fun t => Track.mk t.name 0))).map
      (fun lf => (lf.video, lf.frame_idx, lf.instances.length)) = _
    rw [List.map_map, List.map_map]
    apply List.map_eq_map_iff.mpr
    intro lf hlf
    have hlv : lf.video = v := by
      have := List.of_mem_filter hlf
      rwa [beq_iff_eq] at this
    exact nwb_deser_ser_triple labels.tracks
      (labels.tracks.map fun t => Track.mk t.name 0) v lf hlv
  have hPerm : (((labels.videos.map (nwbModuleFor labels)).flatMap fun m =>
      m.frames.map (deserializeFrame [Video.mk m.videoFilename]
        (labels.tracks.map fun t => Track.mk t.name 0))).map
      fun lf => (lf.video, lf.frame_idx, lf.instances.length)).Perm
      (labels.labeled_frames.map
        fun lf => (lf.video, lf.frame_idx, lf.instances.length)) := by
    rw [hframes]
    exact (partition_filter_perm labels.videos labels.labeled_frames hnd
      hall).map fun lf => (lf.video, lf.frame_idx, lf.instances.length)
  refine ⟨hPerm, ?_, ?_, ?_, rfl, rfl⟩
  · have hlen := hPerm.length_eq
    rwa [List.length_map, List.length_map] at hlen
  · rw [List.length_map]
  · rw [List.map_map]
    rfl

theorem round_trip_read_write_adaptors_witness :
    (Labels.mk [Video.mk "w"] (Skeleton.mk ["A"] []) [Track.mk "t" 1]
      [LabeledFrame.mk (Video.mk "w") 0
        [PoseInstance.mk [some (3, 4)] (some (Track.mk "t" 1)) none]]
      ).wellFormed = true ∧
    (Labels.mk [Video.mk "w"] (Skeleton.mk ["A"] []) [Track.mk "t" 1]
      [LabeledFrame.mk (Video.mk "w") 0
        [PoseInstance.mk [some (3, 4)] (some (Track.mk "t" 1)) none]]
      ).videos.Nodup ∧
    (labelsV1_read (labelsV1_write
      (Labels.mk [Video.mk "w"] (Skeleton.mk ["A"] []) [Track.mk "t" 1]
        [LabeledFrame.mk (Video.mk "w") 0
          [PoseInstance.mk [some (3, 4)] (some (Track.mk "t" 1)) none]])
      )).labeled_frames.length =
      (Labels.mk [Video.mk "w"] (Skeleton.mk ["A"] []) [Track.mk "t" 1]
        [LabeledFrame.mk (Video.mk "w") 0
          [PoseInstance.mk [some (3, 4)] (some (Track.mk "t" 1)) none]]
        ).labeled_frames.length ∧
    (NDXPoseAdaptor.read (NWBFile.mk [NWBModule.mk "w" ["A"] [] ["t"]
      [SerFrame.mk 0 0 [SerInstance.mk [some (3, 4)] (some 0) none]]])
      ).tracks.length =
      (Labels.mk [Video.mk "w"] (Skeleton.mk ["A"] []) [Track.mk "t" 1]
        [LabeledFrame.mk (Video.mk "w") 0
          [PoseInstance.mk [some (3, 4)] (some (Track.mk "t" 1)) none]]
        ).tracks.length := by
  refine ⟨by decide, by decide, ?_, ?_⟩
  · exact (round_trip_read_write_adaptors
      (Labels.mk [Video.mk "w"] (Skeleton.mk ["A"] []) [Track.mk "t" 1]
        [LabeledFrame.mk (Video.mk "w") 0
          [PoseInstance.mk [some (3, 4)] (some (Track.mk "t" 1)) none]])
      (by decide) (by decide)).1.1
  · exact ((round_trip_read_write_adaptors
      (Labels.mk [Video.mk "w"] (Skeleton.mk ["A"] []) [Track.mk "t" 1]
        [LabeledFrame.mk (Video.mk "w") 0
          [PoseInstance.mk [some (3, 4)] (some (Track.mk "t" 1)) none]])
      (by decide) (by decide)).2
      (NWBFile.mk [NWBModule.mk "w" ["A"] [] ["t"]
        [SerFrame.mk 0 0 [SerInstance.mk [some (3, 4)] (some 0) none]]])
      rfl).2.2.1

theorem find?_first {α : Type} [Inhabited α] (l : List α) (p : α → Bool) :
    ∀ i : Nat, i < l.length → p (l.getD i default) = true →
    (∀ j : Nat, j < i → p (l.getD j default) = false) →
    l.find? p = some (l.getD i default) := by
  induction l with
  | nil => intro i hi; simp at hi
  | cons a t ih =>
      intro i hi hp hprev
      cases i with
      | zero =>
          rw [List.getD_cons_zero] at hp ⊢
          exact List.find?_cons_of_pos t hp
      | succ n =>
          have ha : p a = false := by
            have := hprev 0 (Nat.succ_pos n)
            rwa [List.getD_cons_zero] at this
          rw [List.getD_cons_succ] at hp ⊢
          rw [List.find?_cons_of_neg t (by rw [ha]; exact Bool.false_ne_true)]
          refine ih n (by simpa using hi) hp ?_
          intro j hj
          have := hprev (j + 1) (by omega)
          rwa [List.getD_cons_succ] at this

/-- C2: with the wildcard (or unspecified) format and an existing path, read
probes the registered adaptors in registration order via can_read and uses
the first adaptor whose probe succeeds; if no probe succeeds it fails with
the TypeError-class NoMatchingAdaptor error. -/
theorem dispatch_read_first_match {σ α : Type} (disp : Dispatch σ α)
    (fs : String → Option σ) (path : String) (content : σ)
    (h : fs path = some content) :
    ((∀ a ∈ disp.adaptors, a.canRead content = false) →
      disp.read fs path = .error .noMatchingAdaptor ∧
      disp.readAs fs path "*" = .error .noMatchingAdaptor ∧
      FormatError.errKind .noMatchingAdaptor = .typeError) ∧
    (∀ i : Nat, i < disp.adaptors.length →
      (disp.adaptors.getD i default).canRead content = true →
      (∀ j : Nat, j < i → (disp.adaptors.getD j default).canRead content = false) →
      disp.read fs path = applyAdaptor (disp.adaptors.getD i default) content) := by
  constructor
  · intro hnone
    have hfind : disp.adaptors.find? (fun a => a.canRead content) = none := by
      rw [List.find?_eq_none]
      intro a ha
      rw [hnone a ha]
      exact Bool.false_ne_true
    refine ⟨?_, ?_, rfl⟩ <;>
      simp [Dispatch.read, Dispatch.readAs, h, hfind]
  · intro i hi hp hprev
    have hfind := find?_first disp.adaptors (fun a => a.canRead content) i hi hp hprev
    simp [Dispatch.read, Dispatch.readAs, h, hfind]

theorem dispatch_read_first_match_witness :
    ((fun p => if p = "data.json" then some (2 : Nat) else none) "data.json" =
      some 2) ∧
    (((∀ a ∈ (Dispatch.mk [Adaptor.mk "text" (fun n => n == 7) (fun n => some n)]
        : Dispatch Nat Nat).adaptors, a.canRead 2 = false) →
      (Dispatch.mk [Adaptor.mk "text" (fun n => n == 7) (fun n => some n)]
        : Dispatch Nat Nat).read
        (fun p => if p = "data.json" then some 2 else none) "data.json" =
        .error .noMatchingAdaptor ∧
      (Dispatch.mk [Adaptor.mk "text" (fun n => n == 7) (fun n => some n)]
        : Dispatch Nat Nat).readAs
        (fun p => if p = "data.json" then some 2 else none) "data.json" "*" =
        .error .noMatchingAdaptor ∧
      FormatError.errKind .noMatchingAdaptor = .typeError) ∧
    (∀ i : Nat,
      i < (Dispatch.mk [Adaptor.mk "text" (fun n => n == 7) (fun n => some n)]
        : Dispatch Nat Nat).adaptors.length →
      ((Dispatch.mk [Adaptor.mk "text" (fun n => n == 7) (fun n => some n)]
        : Dispatch Nat Nat).adaptors.getD i default).canRead 2 = true →
      (∀ j : Nat, j < i →
        ((Dispatch.mk [Adaptor.mk "text" (fun n => n == 7) (fun n => some n)]
          : Dispatch Nat Nat).adaptors.getD j default).canRead 2 = false) →
      (Dispatch.mk [Adaptor.mk "text" (fun n => n == 7) (fun n => some n)]
        : Dispatch Nat Nat).read
        (fun p => if p = "data.json" then some 2 else none) "data.json" =
        applyAdaptor ((Dispatch.mk
          [Adaptor.mk "text" (fun n => n == 7) (fun n => some n)]
          : Dispatch Nat Nat).adaptors.getD i default) 2)) :=
  ⟨by decide,
    dispatch_read_first_match
      (Dispatch.mk [Adaptor.mk "text" (fun n => n == 7) (fun n => some n)])
      (fun p => if p = "data.json" then some 2 else none) "data.json" 2
      (by decide)⟩

/-- C3: read on a nonexistent path fails with MissingFile, and read_safely
re-raises MissingFile instead of converting it into a returned error value,
while every other error of the taxonomy is returned by read_safely as a
paired error value. -/
theorem read_safely_missing_file {σ α : Type} (disp : Dispatch σ α)
    (fs : String → Option σ) (path : String) :
    (fs path = none →
      disp.read fs path = .error .missingFile ∧
      disp.read_safely fs path = .error .missingFile ∧
      FormatError.errKind .missingFile = .fileNotFound) ∧
    (∀ e : FormatError, e ≠ .missingFile →
      disp.read fs path = .error e →
      disp.read_safely fs path = .ok (none, some e)) := by
  constructor
  · intro h
    have hread : disp.read fs path = .error .missingFile := by
      simp [Dispatch.read, Dispatch.readAs, h]
    refine ⟨hread, ?_, rfl⟩
    simp [Dispatch.read_safely, hread]
  · intro e he hread
    rw [Dispatch.read_safely, hread]
    cases e with
    | missingFile => exact absurd rfl he
    | noMatchingAdaptor => rfl
    | failedRead => rfl

theorem read_safely_missing_file_witness :
    ((fun _ => (none : Option Nat)) "missing_file.txt" = none) ∧
    (((Dispatch.mk [] : Dispatch Nat Nat).read (fun _ => none) "missing_file.txt" =
        .error .missingFile ∧
      (Dispatch.mk [] : Dispatch Nat Nat).read_safely (fun _ => none)
        "missing_file.txt" = .error .missingFile ∧
      FormatError.errKind .missingFile = .fileNotFound)) :=
  ⟨rfl, ((read_safely_missing_file (Dispatch.mk [] : Dispatch Nat Nat)
    (fun _ => none) "missing_file.txt").1) rfl⟩

/-- C6 counterexample: with a three-node skeleton the written instance-position
array has shape [frames, 2, nodes] = [1, 2, 3], not the claimed
(frames, nodes, 2) = [1, 3, 2]; the node axis is last, as test_nix_adaptor
pins with shape[2] == len(nodes). -/
theorem nix_position_shape_counterexample :
    ((NixAdaptor.write
      (Labels.mk [Video.mk "v.mp4"] (Skeleton.mk ["A", "B", "C"] []) []
        [LabeledFrame.mk (Video.mk "v.mp4") 0
          [PoseInstance.mk [none, none, none] none none]]) none).toOption.map
      fun f => ((f.blocks.getD 0 default).dataArrays.getD 0 default).shape) =
      some [1, 2, 3] ∧
    ¬(((NixAdaptor.write
      (Labels.mk [Video.mk "v.mp4"] (Skeleton.mk ["A", "B", "C"] []) []
        [LabeledFrame.mk (Video.mk "v.mp4") 0
          [PoseInstance.mk [none, none, none] none none]]) none).toOption.map
      fun f => ((f.blocks.getD 0 default).dataArrays.getD 0 default).shape) =
      some [1, 3, 2]) := by
  exact ⟨by decide, by decide⟩

/-- C6 (amended): writing a model with more than one video and no explicit
video argument fails with a value error; with exactly one video the target is
inferred and the write succeeds, the top-level metadata section reports the
nix.tracking format tag, and the instance-position data array is
3-dimensional shaped (frames, 2, nodes) - coordinate axis in the middle and
one entry per skeleton node on the last axis. -/
theorem nix_adaptor_write_spec (labels : Labels) :
    (labels.videos.length > 1 →
      NixAdaptor.write labels none = .error ErrKind.valueError) ∧
    (∀ v : Video, labels.videos = [v] →
      NixAdaptor.write labels none = .ok (nixFileFor labels v) ∧
      ((nixFileFor labels v).sections.getD 0 default).format = "nix.tracking" ∧
      (((nixFileFor labels v).blocks.getD 0 default).dataArrays.getD 0
        default).typeName = "nix.tracking.instance_position" ∧
      (((nixFileFor labels v).blocks.getD 0 default).dataArrays.getD 0
        default).shape =
        [nixInstanceCount labels v, 2, labels.skeleton.nodeNames.length]) := by
  constructor
  · intro h
    rcases hv : labels.videos with _ | ⟨v, _ | ⟨w, t⟩⟩
    · rw [hv] at h
      simp at h
    · rw [hv] at h
      simp at h
    · simp [NixAdaptor.write, hv]
  · intro v hv
    refine ⟨?_, rfl, rfl, rfl⟩
    simp [NixAdaptor.write, hv]

theorem nix_adaptor_write_spec_witness :
    ((Labels.mk [Video.mk "v.mp4"] (Skeleton.mk ["A", "B"] [(0, 1)]) []
      [LabeledFrame.mk (Video.mk "v.mp4") 0
        [PoseInstance.mk [some (1, 2), none] none none]]).videos =
      [Video.mk "v.mp4"]) ∧
    (NixAdaptor.write
      (Labels.mk [Video.mk "v.mp4"] (Skeleton.mk ["A", "B"] [(0, 1)]) []
        [LabeledFrame.mk (Video.mk "v.mp4") 0
          [PoseInstance.mk [some (1, 2), none] none none]]) none =
      .ok (nixFileFor
        (Labels.mk [Video.mk "v.mp4"] (Skeleton.mk ["A", "B"] [(0, 1)]) []
          [LabeledFrame.mk (Video.mk "v.mp4") 0
            [PoseInstance.mk [some (1, 2), none] none none]])
        (Video.mk "v.mp4")) ∧
      ((nixFileFor
        (Labels.mk [Video.mk "v.mp4"] (Skeleton.mk ["A", "B"] [(0, 1)]) []
          [LabeledFrame.mk (Video.mk "v.mp4") 0
            [PoseInstance.mk [some (1, 2), none] none none]])
        (Video.mk "v.mp4")).sections.getD 0 default).format = "nix.tracking" ∧
      ((((nixFileFor
        (Labels.mk [Video.mk "v.mp4"] (Skeleton.mk ["A", "B"] [(0, 1)]) []
          [LabeledFrame.mk (Video.mk "v.mp4") 0
            [PoseInstance.mk [some (1, 2), none] none none]])
        (Video.mk "v.mp4")).blocks.getD 0 default).dataArrays.getD 0
        default).typeName = "nix.tracking.instance_position") ∧
      ((((nixFileFor
        (Labels.mk [Video.mk "v.mp4"] (Skeleton.mk ["A", "B"] [(0, 1)]) []
          [LabeledFrame.mk (Video.mk "v.mp4") 0
            [PoseInstance.mk [some (1, 2), none] none none]])
        (Video.mk "v.mp4")).blocks.getD 0 default).dataArrays.getD 0
        default).shape =
        [nixInstanceCount
          (Labels.mk [Video.mk "v.mp4"] (Skeleton.mk ["A", "B"] [(0, 1)]) []
            [LabeledFrame.mk (Video.mk "v.mp4") 0
              [PoseInstance.mk [some (1, 2), none] none none]])
          (Video.mk "v.mp4"), 2,
          (Skeleton.mk ["A", "B"] [(0, 1)]).nodeNames.length])) :=
  ⟨rfl, (nix_adaptor_write_spec _).2 (Video.mk "v.mp4") rfl⟩

/-- C7 counterexample: writing a model with no instances through the NWB
adaptor fails with a TypeError-class error, not a value error, exactly as
test_nwb expects with pytest.raises(TypeError). -/
theorem nwb_empty_write_counterexample :
    NDXPoseAdaptor.write (Labels.mk [] (Skeleton.mk [] []) [] []) none =
      .error ErrKind.typeError ∧
    ErrKind.typeError ≠ ErrKind.valueError := by
  exact ⟨rfl, by decide⟩

/-- C7 (amended): writing a Labels model with no instances through the NWB
adaptor always fails, with a TypeError-class error, at write time and before
any partial write: no file is ever produced. -/
theorem nwb_empty_write_fails (labels : Labels) (existing : Option NWBFile)
    (h : labels.allInstances = []) :
    NDXPoseAdaptor.write labels existing = .error ErrKind.typeError ∧
    ∀ f : NWBFile, NDXPoseAdaptor.write labels existing ≠ .ok f := by
  have hw : NDXPoseAdaptor.write labels existing = .error ErrKind.typeError := by
    simp [NDXPoseAdaptor.write, h]
  refine ⟨hw, ?_⟩
  intro f hf
  rw [hw] at hf
  exact Except.noConfusion hf

theorem nwb_empty_write_fails_witness :
    (Labels.mk [Video.mk "v.mp4"] (Skeleton.mk ["A"] []) [] []).allInstances
      = [] ∧
    (NDXPoseAdaptor.write
      (Labels.mk [Video.mk "v.mp4"] (Skeleton.mk ["A"] []) [] []) none =
      .error ErrKind.typeError ∧
    ∀ f : NWBFile, NDXPoseAdaptor.write
      (Labels.mk [Video.mk "v.mp4"] (Skeleton.mk ["A"] []) [] []) none ≠
      .ok f) :=
  ⟨rfl, nwb_empty_write_fails _ none rfl⟩

/-- C8: writing the same Labels to the same NWB destination twice is
idempotent in content: the file after the second identical write equals the
file after the first, so reading it back yields the same labeled frames (and
hence per-frame instances and points), videos, skeleton node names and edges,
and track count. -/
theorem nwb_write_idempotent (labels : Labels) (f1 f2 : NWBFile)
    (h1 : NDXPoseAdaptor.write labels none = .ok f1)
    (h2 : NDXPoseAdaptor.write labels (some f1) = .ok f2) :
    f2 = f1 ∧
    (NDXPoseAdaptor.read f2).labeled_frames =
      (NDXPoseAdaptor.read f1).labeled_frames ∧
    (NDXPoseAdaptor.read f2).labeled_frames.length =
      (NDXPoseAdaptor.read f1).labeled_frames.length ∧
    (NDXPoseAdaptor.read f2).videos = (NDXPoseAdaptor.read f1).videos ∧
    (NDXPoseAdaptor.read f2).skeleton.nodeNames =
      (NDXPoseAdaptor.read f1).skeleton.nodeNames ∧
    (NDXPoseAdaptor.read f2).skeleton.edgeInds =
      (NDXPoseAdaptor.read f1).skeleton.edgeInds ∧
    (NDXPoseAdaptor.read f2).tracks.length =
      (NDXPoseAdaptor.read f1).tracks.length := by
  by_cases hempty : labels.allInstances = []
  · rw [NDXPoseAdaptor.write, if_pos hempty] at h1
    exact Except.noConfusion h1
  have heq : f2 = f1 := by
    rw [NDXPoseAdaptor.write, if_neg hempty] at h1 h2
    have hf1 : f1 = ⟨labels.videos.map (nwbModuleFor labels)⟩ := by
      simp only [Option.getD, List.any_nil, Bool.not_false, List.filter_true,
        List.nil_append, Except.ok.injEq] at h1
      exact h1.symm
    have hfil : ((labels.videos.map (nwbModuleFor labels)).filter fun m =>
        !((labels.videos.map (nwbModuleFor labels)).any fun m0 =>
          m0.videoFilename == m.videoFilename)) = [] := by
      rw [List.filter_eq_nil_iff]
      intro m hm
      have hany : ((labels.videos.map (nwbModuleFor labels)).any fun m0 =>
          m0.videoFilename == m.videoFilename) = true := by
        rw [List.any_eq_true]
        exact ⟨m, hm, by simp⟩
      simp [hany]
    rw [hf1] at h2
    simp only [Option.getD, hfil, List.append_nil, Except.ok.injEq] at h2
    rw [← h2, hf1]
  subst heq
  exact ⟨rfl, rfl, rfl, rfl, rfl, rfl, rfl⟩

theorem nwb_write_idempotent_witness :
    (NDXPoseAdaptor.write
      (Labels.mk [Video.mk "v"] (Skeleton.mk ["A"] []) [Track.mk "t" 0]
        [LabeledFrame.mk (Video.mk "v") 0
          [PoseInstance.mk [some (1, 2)] (some (Track.mk "t" 0)) none]]) none =
      .ok (NWBFile.mk [NWBModule.mk "v" ["A"] [] ["t"]
        [SerFrame.mk 0 0 [SerInstance.mk [some (1, 2)] (some 0) none]]])) ∧
    (NDXPoseAdaptor.write
      (Labels.mk [Video.mk "v"] (Skeleton.mk ["A"] []) [Track.mk "t" 0]
        [LabeledFrame.mk (Video.mk "v") 0
          [PoseInstance.mk [some (1, 2)] (some (Track.mk "t" 0)) none]])
      (some (NWBFile.mk [NWBModule.mk "v" ["A"] [] ["t"]
        [SerFrame.mk 0 0 [SerInstance.mk [some (1, 2)] (some 0) none]]])) =
      .ok (NWBFile.mk [NWBModule.mk "v" ["A"] [] ["t"]
        [SerFrame.mk 0 0 [SerInstance.mk [some (1, 2)] (some 0) none]]])) ∧
    (NDXPoseAdaptor.read (NWBFile.mk [NWBModule.mk "v" ["A"] [] ["t"]
      [SerFrame.mk 0 0 [SerInstance.mk [some (1, 2)] (some 0) none]]])
      ).labeled_frames.length =
    (NDXPoseAdaptor.read (NWBFile.mk [NWBModule.mk "v" ["A"] [] ["t"]
      [SerFrame.mk 0 0 [SerInstance.mk [some (1, 2)] (some 0) none]]])
      ).labeled_frames.length := by
  refine ⟨rfl, rfl, ?_⟩
  exact (nwb_write_idempotent
    (Labels.mk [Video.mk "v"] (Skeleton.mk ["A"] []) [Track.mk "t" 0]
      [LabeledFrame.mk (Video.mk "v") 0
        [PoseInstance.mk [some (1, 2)] (some (Track.mk "t" 0)) none]])
    (NWBFile.mk [NWBModule.mk "v" ["A"] [] ["t"]
      [SerFrame.mk 0 0 [SerInstance.mk [some (1, 2)] (some 0) none]]])
    (NWBFile.mk [NWBModule.mk "v" ["A"] [] ["t"]
      [SerFrame.mk 0 0 [SerInstance.mk [some (1, 2)] (some 0) none]]])
    rfl rfl).2.2.1

theorem find?_eq_some_first {α : Type} [Inhabited α] :
    ∀ (l : List α) (p : α → Bool) (a : α), l.find? p = some a →
    p a = true ∧ ∃ k : Nat, k < l.length ∧ l.getD k default = a ∧
      ∀ j : Nat, j < k → p (l.getD j default) = false
  | [], p, a, h => by simp at h
  | x :: t, p, a, h => by
      by_cases hx : p x = true
      · rw [List.find?_cons_of_pos t hx] at h
        have hxa : x = a := by injection h
        subst hxa
        exact ⟨hx, 0, Nat.succ_pos _, rfl,
          fun j hj => absurd hj (Nat.not_lt_zero j)⟩
      · rw [List.find?_cons_of_neg t (by simpa using hx)] at h
        obtain ⟨hp, k, hk, hget, hmin⟩ := find?_eq_some_first t p a h
        refine ⟨hp, k + 1, by simp only [List.length_cons]; omega, ?_, ?_⟩
        · rw [List.getD_cons_succ]
          exact hget
        · intro j hj
          cases j with
          | zero =>
              rw [List.getD_cons_zero]
              simpa using hx
          | succ m =>
              rw [List.getD_cons_succ]
              exact hmin m (by omega)

theorem find?_range_first (n : Nat) (p : Nat → Bool) (i : Nat)
    (h : (List.range n).find? p = some i) :
    i < n ∧ p i = true ∧ ∀ j : Nat, j < i → p j = false := by
  obtain ⟨hp, k, hk, hget, hmin⟩ := find?_eq_some_first (List.range n) p i h
  rw [List.length_range] at hk
  have hd : (default : Nat) = 0 := rfl
  rw [hd, getD_range_of_lt n k hk] at hget
  subst hget
  refine ⟨hk, hp, ?_⟩
  intro j hj
  have hmj := hmin j hj
  rwa [hd, getD_range_of_lt n j (by omega)] at hmj

/-- C9: a CSV frame whose coordinates are all missing for every subject is
excluded entirely from the resulting labeled-frame set, and every inferred
track is spawned by some subject on the first frame index where that subject
has at least one non-missing coordinate. -/
theorem dlc_read_spec (table : DLCTable) :
    (∀ i : Nat, i < table.rows.length →
      ((table.rows.getD i []).any fun sub => sub.any fun p => p.isSome) =
        false →
      ∀ lf ∈ (DeepLabCutAdaptor.read table).labeled_frames,
        lf.frame_idx ≠ i) ∧
    (∀ t ∈ (DeepLabCutAdaptor.read table).tracks,
      ∃ s : Nat, s < table.subjects.length ∧ dlcTrackFor table s = some t ∧
        t.spawned_on < table.rows.length ∧
        subjectHasData (table.rows.getD t.spawned_on []) s = true ∧
        ∀ j : Nat, j < t.spawned_on →
          subjectHasData (table.rows.getD j []) s = false) := by
  constructor
  · intro i hi hnone lf hlf
    intro heq
    simp only [DeepLabCutAdaptor.read] at hlf
    unfold dlcReadFrames at hlf
    rw [List.mem_filterMap] at hlf
    obtain ⟨iv, hivr, hsome⟩ := hlf
    by_cases hc : ((table.rows.getD iv []).any fun sub =>
        sub.any fun p => p.isSome) = true
    · rw [if_pos hc] at hsome
      have hfi : lf.frame_idx = iv := by
        have := Option.some.inj hsome
        rw [← this]
      rw [hfi] at heq
      rw [heq] at hc
      rw [hnone] at hc
      exact Bool.noConfusion hc
    · rw [if_neg hc] at hsome
      exact Option.noConfusion hsome
  · intro t ht
    simp only [DeepLabCutAdaptor.read] at ht
    rw [List.mem_filterMap] at ht
    obtain ⟨s, hsr, hsome⟩ := ht
    rw [List.mem_range] at hsr
    refine ⟨s, hsr, hsome, ?_⟩
    unfold dlcTrackFor at hsome
    cases hfind : (List.range table.rows.length).find?
        (fun i => subjectHasData (table.rows.getD i []) s) with
    | none =>
        rw [hfind] at hsome
        exact Option.noConfusion hsome
    | some i =>
        rw [hfind] at hsome
        have hti := Option.some.inj hsome
        obtain ⟨hlt, hp, hmin⟩ := find?_range_first _ _ _ hfind
        rw [← hti]
        exact ⟨hlt, hp, hmin⟩

theorem dlc_read_spec_witness :
    (∀ i : Nat,
      i < (DLCTable.mk ["s1", "s2"] ["A"]
        [[[some ((0 : ℚ), 1)], [none]], [[none], [none]],
         [[none], [some (2, 3)]]]).rows.length →
      (((DLCTable.mk ["s1", "s2"] ["A"]
        [[[some ((0 : ℚ), 1)], [none]], [[none], [none]],
         [[none], [some (2, 3)]]]).rows.getD i []).any fun sub =>
          sub.any fun p => p.isSome) = false →
      ∀ lf ∈ (DeepLabCutAdaptor.read (DLCTable.mk ["s1", "s2"] ["A"]
        [[[some ((0 : ℚ), 1)], [none]], [[none], [none]],
         [[none], [some (2, 3)]]])).labeled_frames,
        lf.frame_idx ≠ i) ∧
    (∀ t ∈ (DeepLabCutAdaptor.read (DLCTable.mk ["s1", "s2"] ["A"]
        [[[some ((0 : ℚ), 1)], [none]], [[none], [none]],
         [[none], [some (2, 3)]]])).tracks,
      ∃ s : Nat, s < (DLCTable.mk ["s1", "s2"] ["A"]
          [[[some ((0 : ℚ), 1)], [none]], [[none], [none]],
           [[none], [some (2, 3)]]]).subjects.length ∧
        dlcTrackFor (DLCTable.mk ["s1", "s2"] ["A"]
          [[[some ((0 : ℚ), 1)], [none]], [[none], [none]],
           [[none], [some (2, 3)]]]) s = some t ∧
        t.spawned_on < (DLCTable.mk ["s1", "s2"] ["A"]
          [[[some ((0 : ℚ), 1)], [none]], [[none], [none]],
           [[none], [some (2, 3)]]]).rows.length ∧
        subjectHasData ((DLCTable.mk ["s1", "s2"] ["A"]
          [[[some ((0 : ℚ), 1)], [none]], [[none], [none]],
           [[none], [some (2, 3)]]]).rows.getD t.spawned_on []) s = true ∧
        ∀ j : Nat, j < t.spawned_on →
          subjectHasData ((DLCTable.mk ["s1", "s2"] ["A"]
            [[[some ((0 : ℚ), 1)], [none]], [[none], [none]],
             [[none], [some (2, 3)]]]).rows.getD j []) s = false) :=
  dlc_read_spec (DLCTable.mk ["s1", "s2"] ["A"]
    [[[some ((0 : ℚ), 1)], [none]], [[none], [none]],
     [[none], [some (2, 3)]]])

end Sleap
